import Mathlib

/-!
# Verification of `gatt-utils.js` (hapclient BLE GATT utilities)

A shallow embedding of `src/lib/transport/ble/gatt-utils.js` in Lean 4,
together with theorems settling the specification claims about it.

Modelling conventions:
* JavaScript strings are modelled as `List Nat` of code points.
* Node `Buffer`s are modelled as `List Nat` of bytes (each `< 256` where
  produced by the code).
* JavaScript numbers occurring in the codec are modelled as `Int` for
  integer-valued numbers, and by their 32-bit pattern for numbers that are
  exactly representable IEEE-754 singles (the only float values the
  round-trip claims quantify over).
* Fallible operations (Node buffer reads/writes that throw `RangeError`,
  the `switch` default that throws `Unknown format type`) return `Except`.
* JavaScript 32-bit operator semantics (`&`, `>>`, `<<` convert operands
  with ToInt32 and mask shift counts to 5 bits) are modelled explicitly.
-/

namespace GattUtils

/-! ## Character-level models of JS string primitives

`String.prototype.toLowerCase` / `toUpperCase` are modelled per code point
(the claims restrict attention to characters whose case mapping is a single
character; on the ASCII range used by UUIDs this is exact). -/

/-- Model of the lowercase mapping on one code point (ASCII range). -/
def jsCharLower (c : Nat) : Nat :=
  if 65 ≤ c ∧ c ≤ 90 then c + 32 else c

/-- Model of the uppercase mapping on one code point (ASCII range). -/
def jsCharUpper (c : Nat) : Nat :=
  if 97 ≤ c ∧ c ≤ 122 then c - 32 else c

/-- Model of `String.prototype.toLowerCase`. -/
def jsToLowerCase (s : List Nat) : List Nat := s.map jsCharLower

/-- Model of `String.prototype.toUpperCase`. -/
def jsToUpperCase (s : List Nat) : List Nat := s.map jsCharUpper

/-- Code point of the dash character `-`. -/
def dashChar : Nat := 45

/-- Model of `.replace(dashRegexGlobal, '')`: delete every dash. -/
def removeDashes (s : List Nat) : List Nat := s.filter (fun c => c ≠ dashChar)

/-- Model of `String.prototype.substring(a, b)` for `a ≤ b`:
the code points at indices `[a, b)`. -/
def jsSubstring (s : List Nat) (a b : Nat) : List Nat :=
  (s.drop a).take (b - a)

/-- Model of `Array.prototype.join('-')`. -/
def joinDash : List (List Nat) → List Nat
  | [] => []
  | [p] => p
  | p :: ps => p ++ dashChar :: joinDash ps

/-! ## The UUID normalizer (source: `uuidToNobleUuid`, `nobleUuidToUuid`) -/

/-- Source: `uuidToNobleUuid(uuid)`: lowercase the string, then delete all dashes. -/
def uuidToNobleUuid (uuid : List Nat) : List Nat :=
  removeDashes (jsToLowerCase uuid)

/-- Source: `nobleUuidToUuid(uuid)`: uppercase; if length ≠ 32 return as-is;
else split into substrings (0,8) (8,12) (12,16) (16,20) (20,32) and join
with dashes. -/
def nobleUuidToUuid (uuid : List Nat) : List Nat :=
  let u := jsToUpperCase uuid
  if u.length ≠ 32 then
    u
  else
    joinDash [jsSubstring u 0 8, jsSubstring u 8 12, jsSubstring u 12 16,
              jsSubstring u 16 20, jsSubstring u 20 32]

/-! ## The operation watcher (source: `addWatcher`, `removeWatcher`)

The watcher closure is embedded as an explicit state machine.  The state
records the closure-captured `rejected` variable, the `rejected` property of
the returned watcher object (a by-value copy, taken at creation), whether the
once-listener is still registered on the peripheral, whether a timer is still
pending, whether the watcher object's `timeout` property is non-null, and the
list of reasons passed to `rejectFn` so far (so that the number and order of
`rejectFn` invocations is observable). -/

/-- Reason strings passed to `rejectFn`: the timer callback passes
`'Timeout'`; the disconnect event delivers no argument, which `fn` defaults
to `'Disconnected'`. -/
inductive FireReason
  | disconnected
  | timeout
deriving DecidableEq, Repr

/-- A JavaScript argument slot for `addWatcher`'s `timeout` parameter:
omitted (`undefined`), `null`, or a number (integral values modelled). -/
inductive JsArg
  | undefined
  | null
  | num (n : Int)
deriving DecidableEq, Repr

/-- Default-parameter application (`timeout = 3000`): only `undefined`
triggers the default. -/
def effectiveTimeout : JsArg → JsArg
  | .undefined => .num 3000
  | a => a

/-- JS truthiness of the effective timeout value (`if (timeout)`):
`null` is falsy, a number is truthy iff non-zero. -/
def timeoutTruthy : JsArg → Bool
  | .num n => n != 0
  | _ => false

/-- State of one watcher instance together with its environment bindings. -/
structure WatcherState where
  closureRejected : Bool
  handleRejected : Bool
  listenerAttached : Bool
  timerArmed : Bool
  timerHandle : Bool
  rejectLog : List FireReason
deriving DecidableEq, Repr

/-- The closure `fn`: `reason = reason || 'Disconnected'`, set the
closure-captured `rejected` to true, call `rejectFn(reason)` (recorded by
appending to the log). -/
def fireFn (s : WatcherState) (reason : Option FireReason) : WatcherState :=
  { s with closureRejected := true,
           rejectLog := s.rejectLog ++ [reason.getD .disconnected] }

/-- Source: `addWatcher(peripheral, rejectFn, timeout = 3000)`.  Initializes
`rejected = false`, registers the once-listener, copies `rejected` by value
into the returned object, and arms a timer iff the (defaulted) timeout is
truthy. -/
def addWatcher (timeoutArg : JsArg) : WatcherState :=
  let armed := timeoutTruthy (effectiveTimeout timeoutArg)
  { closureRejected := false
    handleRejected := false
    listenerAttached := true
    timerArmed := armed
    timerHandle := armed
    rejectLog := [] }

/-- Events the single-threaded event loop can deliver to a watcher: a
peripheral disconnect, expiry of the armed timer, or the caller invoking
`removeWatcher`. -/
inductive WEvent
  | disconnect
  | timerFire
  | remove
deriving DecidableEq, Repr

/-- One event-loop turn.  A disconnect invokes `fn` (with no reason) iff the
once-listener is still attached, detaching it first; a timer expiry can only
occur while the timer is armed and runs the timer callback, which returns
early when `rejected` is already set and otherwise calls `fn('Timeout')`;
`removeWatcher` clears any pending timer and removes the listener. -/
def step (s : WatcherState) : WEvent → WatcherState
  | .disconnect =>
    if s.listenerAttached then
      fireFn { s with listenerAttached := false } none
    else
      s
  | .timerFire =>
    if s.timerArmed then
      let s' := { s with timerArmed := false }
      if s'.closureRejected then s' else fireFn s' (some .timeout)
    else
      s
  | .remove =>
    { s with timerArmed := false, listenerAttached := false }

/-- Run a sequence of event-loop turns. -/
def run (s : WatcherState) (events : List WEvent) : WatcherState :=
  events.foldl step s

/-- Number of `rejectFn` invocations with reason `'Timeout'`. -/
def timeoutFires (s : WatcherState) : Nat :=
  (s.rejectLog.filter (fun r => decide (r = .timeout))).length

/-- Number of `rejectFn` invocations with reason `'Disconnected'`. -/
def disconnectFires (s : WatcherState) : Nat :=
  (s.rejectLog.filter (fun r => decide (r = .disconnected))).length

/-- Invariant tying the flags to the log of `rejectFn` invocations. -/
def WInv (s : WatcherState) : Prop :=
  disconnectFires s ≤ 1 ∧
  (s.listenerAttached = true → disconnectFires s = 0) ∧
  timeoutFires s ≤ 1 ∧
  (s.timerArmed = true → timeoutFires s = 0) ∧
  s.rejectLog.length = disconnectFires s + timeoutFires s ∧
  (s.closureRejected = true ↔ s.rejectLog ≠ []) ∧
  s.handleRejected = false

/-! ## The value codec (source: `bufferToValue`, `valueToBuffer`)

Format tags are the literal strings dispatched on by the source's `switch`;
they are modelled, like all JS strings, as lists of code points. -/

def boolTag : List Nat := [98, 111, 111, 108]

def uint8Tag : List Nat := [117, 105, 110, 116, 56]

def uint16Tag : List Nat := [117, 105, 110, 116, 49, 54]

def uint32Tag : List Nat := [117, 105, 110, 116, 51, 50]

def uint64Tag : List Nat := [117, 105, 110, 116, 54, 52]

def intTag : List Nat := [105, 110, 116]

def floatTag : List Nat := [102, 108, 111, 97, 116]

def stringTag : List Nat := [115, 116, 114, 105, 110, 103]

def dataTag : List Nat := [100, 97, 116, 97]

/-- The fixed set of format tags handled by the `switch` statements. -/
def knownTags : List (List Nat) :=
  [boolTag, uint8Tag, uint16Tag, uint32Tag, uint64Tag, intTag, floatTag,
   stringTag, dataTag]

/-- JavaScript values flowing through the codec.  `num` is an
integer-valued JS number; `f32` is a JS number that is exactly a (possibly
non-finite) IEEE-754 single, identified by its 32-bit pattern — the only
float values the round-trip claims quantify over, on which Node's
`writeFloatLE` is exact; `str` is a string; `buf` a Node `Buffer`. -/
inductive JsVal
  | bool (b : Bool)
  | num (n : Int)
  | f32 (bits : Nat)
  | str (s : List Nat)
  | buf (bytes : List Nat)
deriving DecidableEq, Repr

/-- Errors the codec can raise: the `switch` default throws
`Unknown format type: <tag>`; Node buffer reads/writes throw `RangeError`
for out-of-bounds offsets and out-of-range values.  `typeMismatch` marks
value/format pairings whose JS coercion behaviour is outside every claim's
domain and is not modelled. -/
inductive JsErr
  | unsupportedFormat (tag : List Nat)
  | rangeError
  | typeMismatch
deriving DecidableEq, Repr

/-- ECMAScript ToInt32: reduce mod 2^32 into the signed 32-bit range. -/
def jsToInt32 (n : Int) : Int :=
  (n + 2147483648) % 4294967296 - 2147483648

/-- JS truthiness (`value ? 1 : 0`): `false`, `±0`, `NaN` and the empty
string are falsy; objects (buffers) are always truthy. -/
def jsTruthy : JsVal → Bool
  | .bool b => b
  | .num n => n != 0
  | .f32 bits =>
    !(bits % 2147483648 == 0 ||
      (bits / 8388608 % 256 == 255 && bits % 8388608 != 0))
  | .str s => !s.isEmpty
  | .buf _ => true

/-- Model of `buf.readUInt8(offset)`: one byte, throws `RangeError` when the
offset is past the end. -/
def readUInt8 (b : List Nat) (o : Nat) : Except JsErr Nat :=
  if o + 1 ≤ b.length then .ok (b.getD o 0) else .error .rangeError

/-- Model of `buf.readUInt16LE(offset)`. -/
def readUInt16LE (b : List Nat) (o : Nat) : Except JsErr Nat :=
  if o + 2 ≤ b.length then
    .ok (b.getD o 0 + 256 * b.getD (o + 1) 0)
  else
    .error .rangeError

/-- Model of `buf.readUInt32LE(offset)`. -/
def readUInt32LE (b : List Nat) (o : Nat) : Except JsErr Nat :=
  if o + 4 ≤ b.length then
    .ok (b.getD o 0 + 256 * b.getD (o + 1) 0 + 65536 * b.getD (o + 2) 0 +
      16777216 * b.getD (o + 3) 0)
  else
    .error .rangeError

/-- Little-endian bytes of the low 16 bits of `m`. -/
def le2 (m : Nat) : List Nat := [m % 256, m / 256 % 256]

/-- Little-endian bytes of the low 32 bits of `m`. -/
def le4 (m : Nat) : List Nat :=
  [m % 256, m / 256 % 256, m / 65536 % 256, m / 16777216 % 256]

/-! ### UTF-8 (model of `Buffer.from(string)` / `buf.toString()`) -/

/-- UTF-8 encoding of one Unicode scalar value. -/
def utf8EncodeChar (c : Nat) : List Nat :=
  if c < 128 then
    [c]
  else if c < 2048 then
    [192 + c / 64, 128 + c % 64]
  else if c < 65536 then
    [224 + c / 4096, 128 + c / 64 % 64, 128 + c % 64]
  else
    [240 + c / 262144, 128 + c / 4096 % 64, 128 + c / 64 % 64, 128 + c % 64]

/-- UTF-8 encoding of a string (model of `Buffer.from(value)`). -/
def utf8Encode (s : List Nat) : List Nat :=
  (s.map utf8EncodeChar).flatten

/-- UTF-8 decoding of a byte list (model of `buf.toString()`); on a
truncated trailing sequence Node substitutes U+FFFD, a case no claim
exercises. -/
def utf8Decode (l : List Nat) : List Nat :=
  match l with
  | [] => []
  | b :: rest =>
    if b < 128 then
      b :: utf8Decode rest
    else if b < 224 then
      if rest.length < 1 then
        [65533]
      else
        ((b - 192) * 64 + (rest.getD 0 0 - 128)) :: utf8Decode (rest.drop 1)
    else if b < 240 then
      if rest.length < 2 then
        [65533]
      else
        ((b - 224) * 4096 + (rest.getD 0 0 - 128) * 64 +
          (rest.getD 1 0 - 128)) :: utf8Decode (rest.drop 2)
    else
      if rest.length < 3 then
        [65533]
      else
        ((b - 240) * 262144 + (rest.getD 0 0 - 128) * 4096 +
          (rest.getD 1 0 - 128) * 64 +
          (rest.getD 2 0 - 128)) :: utf8Decode (rest.drop 3)
termination_by l.length
decreasing_by
  all_goals simp [List.length_drop]
  all_goals omega

/-! ### Base64 (model of `buf.toString('base64')` / `Buffer.from(s, 'base64')`) -/

/-- The base64 alphabet: 6-bit value to code point. -/
def b64Char (v : Nat) : Nat :=
  if v < 26 then 65 + v
  else if v < 52 then 97 + (v - 26)
  else if v < 62 then 48 + (v - 52)
  else if v = 62 then 43
  else 47

/-- The base64 alphabet: code point to 6-bit value (total; garbage inputs,
which no canonical string contains, map to 63). -/
def b64Val (c : Nat) : Nat :=
  if 65 ≤ c ∧ c ≤ 90 then c - 65
  else if 97 ≤ c ∧ c ≤ 122 then 26 + (c - 97)
  else if 48 ≤ c ∧ c ≤ 57 then 52 + (c - 48)
  else if c = 43 then 62
  else 63

/-- Code point of the base64 padding character. -/
def padChar : Nat := 61

/-- Base64 encoding of a byte list, with canonical `=` padding (model of
`buf.toString('base64')`). -/
def b64Encode : List Nat → List Nat
  | a :: b :: c :: rest =>
    b64Char (a / 4) :: b64Char (a % 4 * 16 + b / 16) ::
      b64Char (b % 16 * 4 + c / 64) :: b64Char (c % 64) :: b64Encode rest
  | [a, b] =>
    [b64Char (a / 4), b64Char (a % 4 * 16 + b / 16), b64Char (b % 16 * 4),
     padChar]
  | [a] => [b64Char (a / 4), b64Char (a % 4 * 16), padChar, padChar]
  | [] => []

/-- Base64 decoding (model of `Buffer.from(s, 'base64')`, written out for
canonical inputs: groups of four alphabet characters, with `=` padding only
in the final group; Node's additional forgiveness towards malformed input
is outside every claim's domain). -/
def b64Decode : List Nat → List Nat
  | w :: x :: y :: z :: rest =>
    if z = padChar then
      if y = padChar then
        [b64Val w * 4 + b64Val x / 16]
      else
        [b64Val w * 4 + b64Val x / 16, b64Val x % 16 * 16 + b64Val y / 4]
    else
      (b64Val w * 4 + b64Val x / 16) ::
        (b64Val x % 16 * 16 + b64Val y / 4) ::
        (b64Val y % 4 * 64 + b64Val z) :: b64Decode rest
  | _ => []

/-- Is `c` a base64 alphabet character (not padding)? -/
def isB64Digit (c : Nat) : Bool :=
  (65 ≤ c && c ≤ 90) || (97 ≤ c && c ≤ 122) || (48 ≤ c && c ≤ 57) ||
    c == 43 || c == 47

/-- Canonical base64 text: length a multiple of 4, alphabet characters with
`=` padding only at the very end, and the unused low bits of the final
character equal to zero (so the string is exactly what `b64Encode` produces
for some byte list). -/
def isCanonicalB64 : List Nat → Bool
  | [] => true
  | w :: x :: y :: z :: rest =>
    isB64Digit w && isB64Digit x &&
      (if z = padChar then
        rest.isEmpty &&
          (if y = padChar then b64Val x % 16 == 0
           else isB64Digit y && b64Val y % 4 == 0)
      else isB64Digit y && isB64Digit z && isCanonicalB64 rest)
  | _ => false

/-! ### The codec functions -/

/-- Source: `bufferToValue(buffer, format)` — unpack a HAP value from a
buffer, dispatching on the format tag; unknown tags throw
`Unknown format type: <format>`.  The `uint64` case models
`buffer.readUInt32LE(0) || (buffer.readUInt32LE(4) << 32)` with JS operator
semantics: `||` short-circuits on a truthy (non-zero) low word, and `<< 32`
converts with ToInt32 and shifts by `32 & 31 = 0`. -/
def bufferToValue (buffer : List Nat) (format : List Nat) :
    Except JsErr JsVal :=
  if format = boolTag then do
    let n ← readUInt8 buffer 0
    return .bool (n != 0)
  else if format = uint8Tag then do
    let n ← readUInt8 buffer 0
    return .num n
  else if format = uint16Tag then do
    let n ← readUInt16LE buffer 0
    return .num n
  else if format = uint32Tag then do
    let n ← readUInt32LE buffer 0
    return .num n
  else if format = uint64Tag then do
    let low ← readUInt32LE buffer 0
    if low ≠ 0 then
      return .num low
    else do
      let high ← readUInt32LE buffer 4
      return .num (jsToInt32 high)
  else if format = intTag then do
    let n ← readUInt32LE buffer 0
    return .num (jsToInt32 n)
  else if format = floatTag then do
    let n ← readUInt32LE buffer 0
    return .f32 n
  else if format = stringTag then
    return .str (utf8Decode buffer)
  else if format = dataTag then
    return .str (b64Encode buffer)
  else
    .error (.unsupportedFormat format)

/-- Source: `valueToBuffer(value, format)` — pack a HAP value into a buffer.
`uint8` writes `value & 0xff` (i.e. ToInt32 then low 8 bits); the fixed-width
writes `writeUInt16LE` / `writeUInt32LE` / `writeInt32LE` throw `RangeError`
on out-of-range values; the `uint64` case writes `value & 0xffffffff` at
offset 0 and `value >> 32` at offset 4, both of which equal ToInt32 of the
value under JS operator semantics (`>> 32` shifts by `32 & 31 = 0`), so a
value whose ToInt32 image is negative makes `writeUInt32LE` throw.
JS coercions of value shapes never produced by callers (e.g. a string for a
numeric format) are not modelled (`typeMismatch`). -/
def valueToBuffer (value : JsVal) (format : List Nat) :
    Except JsErr (List Nat) :=
  if format = boolTag then
    .ok [if jsTruthy value then 1 else 0]
  else if format = uint8Tag then
    match value with
    | .num n => .ok [(n % 256).toNat]
    | _ => .error .typeMismatch
  else if format = uint16Tag then
    match value with
    | .num n =>
      if 0 ≤ n ∧ n ≤ 65535 then .ok (le2 n.toNat) else .error .rangeError
    | _ => .error .typeMismatch
  else if format = uint32Tag then
    match value with
    | .num n =>
      if 0 ≤ n ∧ n ≤ 4294967295 then .ok (le4 n.toNat) else .error .rangeError
    | _ => .error .typeMismatch
  else if format = uint64Tag then
    match value with
    | .num n =>
      let w := jsToInt32 n
      if 0 ≤ w ∧ w ≤ 4294967295 then
        .ok (le4 w.toNat ++ le4 w.toNat)
      else
        .error .rangeError
    | _ => .error .typeMismatch
  else if format = intTag then
    match value with
    | .num n =>
      if -2147483648 ≤ n ∧ n ≤ 2147483647 then
        .ok (le4 (n % 4294967296).toNat)
      else
        .error .rangeError
    | _ => .error .typeMismatch
  else if format = floatTag then
    match value with
    | .f32 bits => .ok (le4 bits)
    | _ => .error .typeMismatch
  else if format = stringTag then
    match value with
    | .str s => .ok (utf8Encode s)
    | _ => .error .typeMismatch
  else if format = dataTag then
    match value with
    | .str s => .ok (b64Decode s)
    | .buf b => .ok b
    | _ => .error .typeMismatch
  else
    .error (.unsupportedFormat format)

/-- The fixed byte width read by `bufferToValue` for each known format
(0 for the variable-length `string` and `data` formats). -/
def formatWidth (format : List Nat) : Nat :=
  if format = boolTag then 1
  else if format = uint8Tag then 1
  else if format = uint16Tag then 2
  else if format = uint32Tag then 4
  else if format = uint64Tag then 8
  else if format = intTag then 4
  else if format = floatTag then 4
  else 0

/-- The exactly-representable domain of each format, per the round-trip
claim: `bool` booleans; `uint8/16/32` unsigned integers of the width;
`int` signed 32-bit integers; `float` finite IEEE-754 singles (32-bit
pattern with exponent field ≠ 255); `string` Unicode scalar text;
`data` canonical base64 text. -/
def inDomain (value : JsVal) (format : List Nat) : Bool :=
  if format = boolTag then
    match value with
    | .bool _ => true
    | _ => false
  else if format = uint8Tag then
    match value with
    | .num n => decide (0 ≤ n ∧ n ≤ 255)
    | _ => false
  else if format = uint16Tag then
    match value with
    | .num n => decide (0 ≤ n ∧ n ≤ 65535)
    | _ => false
  else if format = uint32Tag then
    match value with
    | .num n => decide (0 ≤ n ∧ n ≤ 4294967295)
    | _ => false
  else if format = intTag then
    match value with
    | .num n => decide (-2147483648 ≤ n ∧ n ≤ 2147483647)
    | _ => false
  else if format = floatTag then
    match value with
    | .f32 bits => decide (bits < 4294967296 ∧ bits / 8388608 % 256 ≠ 255)
    | _ => false
  else if format = stringTag then
    match value with
    | .str s => s.all (fun c => decide (c < 1114112 ∧ ¬(55296 ≤ c ∧ c < 57344)))
    | _ => false
  else if format = dataTag then
    match value with
    | .str s => isCanonicalB64 s
    | _ => false
  else
    false

/-! ### Lemmas about the UUID normalizer -/

theorem jsCharLower_idem (c : Nat) : jsCharLower (jsCharLower c) = jsCharLower c := by
  unfold jsCharLower
  split <;> (try split) <;> omega

theorem jsCharLower_eq_dash (c : Nat) : jsCharLower c = dashChar ↔ c = dashChar := by
  unfold jsCharLower dashChar
  split <;> omega

theorem uuidToNobleUuid_cons (c : Nat) (s : List Nat) :
    uuidToNobleUuid (c :: s) =
      (if jsCharLower c ≠ dashChar then [jsCharLower c] else []) ++ uuidToNobleUuid s := by
  unfold uuidToNobleUuid jsToLowerCase removeDashes
  simp only [List.map_cons, List.filter_cons]
  split <;> simp_all

theorem uuidToNobleUuid_append (a b : List Nat) :
    uuidToNobleUuid (a ++ b) = uuidToNobleUuid a ++ uuidToNobleUuid b := by
  simp [uuidToNobleUuid, jsToLowerCase, removeDashes]

theorem drop_take_drop (u : List Nat) (a b : Nat) :
    (u.drop a).take b ++ u.drop (a + b) = u.drop a := by
  have h : u.drop (a + b) = (u.drop a).drop b := by
    rw [List.drop_drop, Nat.add_comm]
  rw [h, List.take_append_drop]

/-- C10: `uuidToNobleUuid` is idempotent — applying it to its own output
(lowercased, dash-free) returns that output unchanged, so a UUID already in
compact form passes through unchanged. -/
theorem c10_uuidToNobleUuid_idempotent (s : List Nat) :
    uuidToNobleUuid (uuidToNobleUuid s) = uuidToNobleUuid s := by
  induction s with
  | nil => rfl
  | cons c s ih =>
    rw [uuidToNobleUuid_cons]
    by_cases h : jsCharLower c = dashChar
    · simpa [h] using ih
    · rw [uuidToNobleUuid_append, ih]
      have h2 : uuidToNobleUuid [jsCharLower c] = [jsCharLower c] := by
        rw [show [jsCharLower c] = jsCharLower c :: [] from rfl, uuidToNobleUuid_cons]
        simp [jsCharLower_idem, h, uuidToNobleUuid, jsToLowerCase, removeDashes]
      simp [h, h2]

/-- C8: `nobleUuidToUuid` uppercases its input; when the uppercased result is
not 32 characters long it is returned unchanged, and when it is exactly 32
characters long it splits into five groups of lengths 8, 4, 4, 4, 12 that are
rejoined with dashes. -/
theorem c8_nobleUuidToUuid_spec (s : List Nat) :
    ((jsToUpperCase s).length ≠ 32 → nobleUuidToUuid s = jsToUpperCase s) ∧
    ((jsToUpperCase s).length = 32 →
      ∃ g1 g2 g3 g4 g5 : List Nat,
        jsToUpperCase s = g1 ++ g2 ++ g3 ++ g4 ++ g5 ∧
        g1.length = 8 ∧ g2.length = 4 ∧ g3.length = 4 ∧ g4.length = 4 ∧
        g5.length = 12 ∧
        nobleUuidToUuid s =
          g1 ++ dashChar :: g2 ++ dashChar :: g3 ++ dashChar :: g4 ++
            dashChar :: g5) := by
  constructor
  · intro h
    simp [nobleUuidToUuid, h]
  · intro h
    set u := jsToUpperCase s with hu
    refine ⟨u.take 8, (u.drop 8).take 4, (u.drop 12).take 4, (u.drop 16).take 4,
            u.drop 20, ?_, ?_, ?_, ?_, ?_, ?_, ?_⟩
    · have h3 := drop_take_drop u 16 4
      have h2 := drop_take_drop u 12 4
      have h1 := drop_take_drop u 8 4
      norm_num at h3 h2 h1
      simp only [List.append_assoc]
      rw [h3, h2, h1, List.take_append_drop]
    · simp [List.length_take, h]
    · simp [List.length_take, List.length_drop, h]
    · simp [List.length_take, List.length_drop, h]
    · simp [List.length_take, List.length_drop, h]
    · simp [List.length_drop, h]
    · have hlen20 : (u.drop 20).length ≤ 12 := by
        simp [List.length_drop, h]
      simp only [nobleUuidToUuid, ← hu, h]
      simp [jsSubstring, joinDash, List.take_of_length_le hlen20]

/-- Witness for C8: both branches at concrete inputs — a 3-character string
passes through uppercased, a 32-character string is regrouped. -/
theorem c8_nobleUuidToUuid_spec_witness :
    nobleUuidToUuid [97, 98, 99] = jsToUpperCase [97, 98, 99] ∧
    (∃ g1 g2 g3 g4 g5 : List Nat,
      jsToUpperCase (List.replicate 32 97) = g1 ++ g2 ++ g3 ++ g4 ++ g5 ∧
      g1.length = 8 ∧ g2.length = 4 ∧ g3.length = 4 ∧ g4.length = 4 ∧
      g5.length = 12 ∧
      nobleUuidToUuid (List.replicate 32 97) =
        g1 ++ dashChar :: g2 ++ dashChar :: g3 ++ dashChar :: g4 ++
          dashChar :: g5) :=
  ⟨(c8_nobleUuidToUuid_spec [97, 98, 99]).1 (by decide),
   (c8_nobleUuidToUuid_spec (List.replicate 32 97)).2 (by decide)⟩

theorem counts_fire_none (s : WatcherState) :
    disconnectFires (fireFn s none) = disconnectFires s + 1 ∧
    timeoutFires (fireFn s none) = timeoutFires s ∧
    (fireFn s none).rejectLog.length = s.rejectLog.length + 1 := by
  simp [fireFn, disconnectFires, timeoutFires, List.filter_append]

theorem counts_fire_timeout (s : WatcherState) :
    disconnectFires (fireFn s (some .timeout)) = disconnectFires s ∧
    timeoutFires (fireFn s (some .timeout)) = timeoutFires s + 1 ∧
    (fireFn s (some .timeout)).rejectLog.length = s.rejectLog.length + 1 := by
  simp [fireFn, disconnectFires, timeoutFires, List.filter_append]

theorem winv_addWatcher (arg : JsArg) : WInv (addWatcher arg) := by
  have key : ∀ b : Bool,
      WInv { closureRejected := false, handleRejected := false,
             listenerAttached := true, timerArmed := b, timerHandle := b,
             rejectLog := [] } := by
    intro b
    cases b <;> simp [WInv, disconnectFires, timeoutFires]
  exact key (timeoutTruthy (effectiveTimeout arg))

theorem winv_step (s : WatcherState) (e : WEvent) (h : WInv s) :
    WInv (step s e) := by
  obtain ⟨h1, h2, h3, h4, h5, h6, h7⟩ := h
  cases e with
  | disconnect =>
    cases ha : s.listenerAttached with
    | false =>
      have hs : step s WEvent.disconnect = s := by
        simp [step, ha]
      rw [hs]
      exact ⟨h1, h2, h3, h4, h5, h6, h7⟩
    | true =>
      have hd0 : disconnectFires s = 0 := h2 ha
      have hs : step s WEvent.disconnect =
          fireFn { s with listenerAttached := false } none := by
        simp [step, ha]
      rw [hs]
      have hc := counts_fire_none { s with listenerAttached := false }
      have hceq1 : disconnectFires (fireFn { s with listenerAttached := false } none)
          = disconnectFires s + 1 := hc.1
      have hceq2 : timeoutFires (fireFn { s with listenerAttached := false } none)
          = timeoutFires s := hc.2.1
      have hceq3 : (fireFn { s with listenerAttached := false } none).rejectLog.length
          = s.rejectLog.length + 1 := hc.2.2
      refine ⟨?_, ?_, ?_, ?_, ?_, ?_, ?_⟩
      · omega
      · intro hcontra
        simp [fireFn] at hcontra
      · omega
      · intro harm
        have : s.timerArmed = true := harm
        rw [hceq2]
        exact h4 this
      · omega
      · simp [fireFn]
      · simp [fireFn]
        exact h7
  | timerFire =>
    cases ha : s.timerArmed with
    | false =>
      have hs : step s WEvent.timerFire = s := by
        simp [step, ha]
      rw [hs]
      exact ⟨h1, h2, h3, h4, h5, h6, h7⟩
    | true =>
      have ht0 : timeoutFires s = 0 := h4 ha
      cases hr : s.closureRejected with
      | true =>
        have hlog : s.rejectLog ≠ [] := h6.mp hr
        have hs : step s WEvent.timerFire = { s with timerArmed := false } := by
          simp [step, ha, hr]
        rw [hs]
        exact ⟨h1, h2, h3, fun hcontra => by simp at hcontra, h5,
               ⟨fun _ => hlog, fun _ => hr⟩, h7⟩
      | false =>
        have hlog : s.rejectLog = [] := by
          by_contra hne
          simp [h6.mpr hne] at hr
        have hd0 : disconnectFires s = 0 := by
          simp [disconnectFires, hlog]
        have hs : step s WEvent.timerFire =
            fireFn { s with timerArmed := false } (some FireReason.timeout) := by
          simp [step, ha, hr]
        rw [hs]
        have hc := counts_fire_timeout { s with timerArmed := false }
        have hceq1 : disconnectFires
            (fireFn { s with timerArmed := false } (some FireReason.timeout))
            = disconnectFires s := hc.1
        have hceq2 : timeoutFires
            (fireFn { s with timerArmed := false } (some FireReason.timeout))
            = timeoutFires s + 1 := hc.2.1
        have hceq3 : (fireFn { s with timerArmed := false }
            (some FireReason.timeout)).rejectLog.length
            = s.rejectLog.length + 1 := hc.2.2
        refine ⟨?_, ?_, ?_, ?_, ?_, ?_, ?_⟩
        · omega
        · intro hatt
          have : s.listenerAttached = true := hatt
          rw [hceq1]
          exact h2 this
        · omega
        · intro hcontra
          simp [fireFn] at hcontra
        · omega
        · simp [fireFn]
        · simp [fireFn]
          exact h7
  | remove =>
    have hs : step s WEvent.remove =
        { s with timerArmed := false, listenerAttached := false } := by
      simp [step]
    rw [hs]
    exact ⟨h1, fun hcontra => by simp at hcontra, h3,
           fun hcontra => by simp at hcontra, h5, h6, h7⟩

theorem winv_run (s : WatcherState) (tr : List WEvent) (h : WInv s) :
    WInv (run s tr) := by
  induction tr generalizing s with
  | nil => exact h
  | cons e tr ih => exact ih _ (winv_step s e h)

theorem timeoutFires_run_no_timerFire (s : WatcherState) (tr : List WEvent)
    (h : WEvent.timerFire ∉ tr) :
    timeoutFires (run s tr) = timeoutFires s := by
  induction tr generalizing s with
  | nil => rfl
  | cons e tr ih =>
    have he : e ≠ WEvent.timerFire := fun hc => h (hc ▸ List.mem_cons_self e tr)
    have htr : WEvent.timerFire ∉ tr := fun hc => h (List.mem_cons_of_mem e hc)
    rw [run, List.foldl_cons, ← run, ih _ htr]
    cases e with
    | disconnect =>
      by_cases ha : s.listenerAttached <;>
        simp [step, ha, fireFn, timeoutFires, List.filter_append]
    | timerFire => exact absurd rfl he
    | remove => simp [step, timeoutFires]

theorem disconnectFires_run_no_disconnect (s : WatcherState) (tr : List WEvent)
    (h : WEvent.disconnect ∉ tr) :
    disconnectFires (run s tr) = disconnectFires s := by
  induction tr generalizing s with
  | nil => rfl
  | cons e tr ih =>
    have he : e ≠ WEvent.disconnect := fun hc => h (hc ▸ List.mem_cons_self e tr)
    have htr : WEvent.disconnect ∉ tr := fun hc => h (List.mem_cons_of_mem e hc)
    rw [run, List.foldl_cons, ← run, ih _ htr]
    cases e with
    | disconnect => exact absurd rfl he
    | timerFire =>
      by_cases ha : s.timerArmed <;>
        by_cases hr : s.closureRejected <;>
          simp [step, ha, hr, fireFn, disconnectFires, List.filter_append]
    | remove => simp [step, disconnectFires]

theorem run_no_fire_events (s : WatcherState) (tr : List WEvent)
    (h1 : s.timerArmed = false) (h2 : s.listenerAttached = false)
    (h3 : s.rejectLog = []) :
    (run s tr).timerArmed = false ∧ (run s tr).listenerAttached = false ∧
    (run s tr).rejectLog = [] := by
  induction tr generalizing s with
  | nil => exact ⟨h1, h2, h3⟩
  | cons e tr ih =>
    have hs : step s e =
        { s with timerArmed := false, listenerAttached := false } := by
      obtain ⟨cr, hr, la, ta, th, lg⟩ := s
      cases e <;> simp_all [step]
    rw [run, List.foldl_cons, ← run, hs]
    exact ih _ rfl rfl h3

theorem run_no_disconnect_preserves (s : WatcherState) (tr : List WEvent)
    (harm : s.timerArmed = false) (hlog : s.rejectLog = [])
    (hnd : WEvent.disconnect ∉ tr) :
    (run s tr).timerArmed = false ∧ (run s tr).rejectLog = [] := by
  induction tr generalizing s with
  | nil => exact ⟨harm, hlog⟩
  | cons e tr ih =>
    have he : e ≠ WEvent.disconnect := fun hc => hnd (hc ▸ List.mem_cons_self e tr)
    have htr : WEvent.disconnect ∉ tr := fun hc => hnd (List.mem_cons_of_mem e hc)
    rw [run, List.foldl_cons, ← run]
    cases e with
    | disconnect => exact absurd rfl he
    | timerFire =>
      have hs : step s WEvent.timerFire = s := by
        simp [step, harm]
      rw [hs]
      exact ih s harm hlog htr
    | remove =>
      have hs : step s WEvent.remove =
          { s with timerArmed := false, listenerAttached := false } := by
        simp [step]
      rw [hs]
      exact ih _ rfl hlog htr

/-! ### Claim theorems for the watcher -/

/-- Counterexample to C1: the watcher is armed with a 50 ms timeout; the
timer expires first, then a disconnect event is delivered before
`removeWatcher`.  `rejectFn` is invoked twice — once with `'Timeout'` and
again with `'Disconnected'` — because the disconnect listener `fn` does not
consult the `rejected` flag. -/
theorem c1_counterexample :
    (run (addWatcher (JsArg.num 50))
        [WEvent.timerFire, WEvent.disconnect]).rejectLog =
      [FireReason.timeout, FireReason.disconnected] ∧
    ¬ (run (addWatcher (JsArg.num 50))
        [WEvent.timerFire, WEvent.disconnect]).rejectLog.length ≤ 1 := by
  decide

/-- C1 (amended): `rejectFn` is invoked at most once per trigger source — at
most once with reason `'Timeout'` and at most once with reason
`'Disconnected'`, hence at most twice per watcher instance.  If the
disconnect fires first, the later timer expiry is a no-op (checked via the
`rejected` flag), so traces without a timer expiry, and traces without a
disconnect, invoke `rejectFn` at most once; but a disconnect delivered after
the timer already fired invokes `rejectFn` a second time. -/
theorem c1_rejectFn_at_most_once_per_source (arg : JsArg) (tr : List WEvent) :
    (run (addWatcher arg) tr).rejectLog.length ≤ 2 ∧
    timeoutFires (run (addWatcher arg) tr) ≤ 1 ∧
    disconnectFires (run (addWatcher arg) tr) ≤ 1 ∧
    (WEvent.timerFire ∉ tr → (run (addWatcher arg) tr).rejectLog.length ≤ 1) ∧
    (WEvent.disconnect ∉ tr →
      (run (addWatcher arg) tr).rejectLog.length ≤ 1) := by
  have hinv := winv_run (addWatcher arg) tr (winv_addWatcher arg)
  obtain ⟨h1, _, h3, _, h5, _, _⟩ := hinv
  refine ⟨by omega, h3, h1, ?_, ?_⟩
  · intro hnt
    have ht := timeoutFires_run_no_timerFire (addWatcher arg) tr hnt
    have ht0 : timeoutFires (addWatcher arg) = 0 := by
      simp [addWatcher, timeoutFires]
    omega
  · intro hnd
    have hd := disconnectFires_run_no_disconnect (addWatcher arg) tr hnd
    have hd0 : disconnectFires (addWatcher arg) = 0 := by
      simp [addWatcher, disconnectFires]
    omega

/-- Witness for C1 (amended) at a concrete trace. -/
theorem c1_rejectFn_at_most_once_per_source_witness :
    (run (addWatcher (JsArg.num 3)) [WEvent.remove]).rejectLog.length ≤ 2 ∧
    timeoutFires (run (addWatcher (JsArg.num 3)) [WEvent.remove]) ≤ 1 ∧
    disconnectFires (run (addWatcher (JsArg.num 3)) [WEvent.remove]) ≤ 1 ∧
    (run (addWatcher (JsArg.num 3)) [WEvent.remove]).rejectLog.length ≤ 1 ∧
    (run (addWatcher (JsArg.num 3)) [WEvent.remove]).rejectLog.length ≤ 1 := by
  have h := c1_rejectFn_at_most_once_per_source (JsArg.num 3) [WEvent.remove]
  exact ⟨h.1, h.2.1, h.2.2.1, h.2.2.2.1 (by decide), h.2.2.2.2 (by decide)⟩

/-- Counterexample to C4: after a disconnect the fire callback has run
(`rejectFn` was invoked once), yet the `rejected` field of the returned
watcher object is still `false` — the handle holds a by-value copy taken
at creation, which no fire ever updates. -/
theorem c4_counterexample :
    (run (addWatcher (JsArg.num 0)) [WEvent.disconnect]).rejectLog.length = 1 ∧
    (run (addWatcher (JsArg.num 0)) [WEvent.disconnect]).handleRejected
      = false := by
  decide

/-- C4 (amended): the handle's `rejected` field is initially `false` and is
never updated afterwards (it is a by-value copy of the closure variable);
what each fire sets to `true` is the closure-captured `rejected` flag — the
one the timer callback consults — and that flag is `true` exactly when at
least one fire has occurred. -/
theorem c4_rejected_flag (arg : JsArg) (tr : List WEvent) :
    (addWatcher arg).handleRejected = false ∧
    (run (addWatcher arg) tr).handleRejected = false ∧
    ((run (addWatcher arg) tr).closureRejected = true ↔
      (run (addWatcher arg) tr).rejectLog ≠ []) := by
  have hinv := winv_run (addWatcher arg) tr (winv_addWatcher arg)
  obtain ⟨_, _, _, _, _, h6, h7⟩ := hinv
  exact ⟨rfl, h7, h6⟩

/-- Counterexample to C5: with the timeout argument omitted, the default of
3000 ms applies — the returned watcher HAS a timer handle, and the timer can
fire without any disconnect event. -/
theorem c5_counterexample :
    (addWatcher JsArg.undefined).timerHandle = true ∧
    (run (addWatcher JsArg.undefined) [WEvent.timerFire]).rejectLog =
      [FireReason.timeout] := by
  decide

/-- C5 (amended): a timeout argument of `0` (or `null`, or any falsy value)
disables the timer — the returned watcher has no timer handle and, in the
absence of a disconnect event, the fire callback is never invoked.  An
omitted timeout argument does NOT disable the timer: it defaults to 3000 ms
and the watcher carries a timer handle. -/
theorem c5_falsy_timeout_disables_timer (tr : List WEvent) :
    (addWatcher (JsArg.num 0)).timerHandle = false ∧
    (addWatcher JsArg.null).timerHandle = false ∧
    (addWatcher JsArg.undefined).timerHandle = true ∧
    (WEvent.disconnect ∉ tr →
      (run (addWatcher (JsArg.num 0)) tr).rejectLog = []) := by
  refine ⟨rfl, rfl, rfl, fun hnd => ?_⟩
  exact (run_no_disconnect_preserves (addWatcher (JsArg.num 0)) tr rfl rfl hnd).2

/-- Witness for C5 (amended) at a concrete trace. -/
theorem c5_falsy_timeout_disables_timer_witness :
    (addWatcher (JsArg.num 0)).timerHandle = false ∧
    (addWatcher JsArg.null).timerHandle = false ∧
    (addWatcher JsArg.undefined).timerHandle = true ∧
    (run (addWatcher (JsArg.num 0))
        [WEvent.timerFire, WEvent.remove]).rejectLog = [] := by
  have h := c5_falsy_timeout_disables_timer [WEvent.timerFire, WEvent.remove]
  exact ⟨h.1, h.2.1, h.2.2.1, h.2.2.2 (by decide)⟩

/-- C9: calling `removeWatcher` before either trigger has fired clears the
pending timer and removes the disconnect listener, and from then on the fire
callback is never invoked, whatever events are delivered afterwards. -/
theorem c9_removeWatcher_prevents_fire (arg : JsArg) (tr : List WEvent) :
    (step (addWatcher arg) WEvent.remove).timerArmed = false ∧
    (step (addWatcher arg) WEvent.remove).listenerAttached = false ∧
    (run (step (addWatcher arg) WEvent.remove) tr).rejectLog = [] := by
  have hs : step (addWatcher arg) WEvent.remove =
      { addWatcher arg with
          timerArmed := false, listenerAttached := false } := by
    simp [step]
  rw [hs]
  exact ⟨rfl, rfl,
    (run_no_fire_events _ tr rfl rfl rfl).2.2⟩

/-! ### Arithmetic facts -/

theorem jsToInt32_bounds (n : Int) :
    -2147483648 ≤ jsToInt32 n ∧ jsToInt32 n < 2147483648 := by
  unfold jsToInt32
  omega

/-! ### UTF-8 round trip -/

theorem utf8Decode_one (b0 : Nat) (r : List Nat) (h1 : b0 < 128) :
    utf8Decode (b0 :: r) = b0 :: utf8Decode r := by
  rw [utf8Decode]
  simp [h1]

theorem utf8Decode_two (b0 b1 : Nat) (r : List Nat)
    (h1 : ¬ b0 < 128) (h2 : b0 < 224) :
    utf8Decode (b0 :: b1 :: r) =
      ((b0 - 192) * 64 + (b1 - 128)) :: utf8Decode r := by
  rw [utf8Decode]
  simp [h1, h2]

theorem utf8Decode_three (b0 b1 b2 : Nat) (r : List Nat)
    (h1 : ¬ b0 < 128) (h2 : ¬ b0 < 224) (h3 : b0 < 240) :
    utf8Decode (b0 :: b1 :: b2 :: r) =
      ((b0 - 224) * 4096 + (b1 - 128) * 64 + (b2 - 128)) :: utf8Decode r := by
  rw [utf8Decode]
  simp [h1, h2, h3]

theorem utf8Decode_four (b0 b1 b2 b3 : Nat) (r : List Nat)
    (h1 : ¬ b0 < 128) (h2 : ¬ b0 < 224) (h3 : ¬ b0 < 240) :
    utf8Decode (b0 :: b1 :: b2 :: b3 :: r) =
      ((b0 - 240) * 262144 + (b1 - 128) * 4096 + (b2 - 128) * 64 +
        (b3 - 128)) :: utf8Decode r := by
  rw [utf8Decode]
  simp [h1, h2, h3]

theorem utf8Decode_encodeChar (c : Nat) (hc : c < 1114112) (rest : List Nat) :
    utf8Decode (utf8EncodeChar c ++ rest) = c :: utf8Decode rest := by
  unfold utf8EncodeChar
  split_ifs with h1 h2 h3
  · rw [List.cons_append, List.nil_append, utf8Decode_one _ _ h1]
  · rw [List.cons_append, List.cons_append, List.nil_append,
      utf8Decode_two _ _ _ (by omega) (by omega),
      show (192 + c / 64 - 192) * 64 + (128 + c % 64 - 128) = c by omega]
  · rw [List.cons_append, List.cons_append, List.cons_append, List.nil_append,
      utf8Decode_three _ _ _ _ (by omega) (by omega) (by omega),
      show (224 + c / 4096 - 224) * 4096 + (128 + c / 64 % 64 - 128) * 64 +
        (128 + c % 64 - 128) = c by omega]
  · rw [List.cons_append, List.cons_append, List.cons_append,
      List.cons_append, List.nil_append,
      utf8Decode_four _ _ _ _ _ (by omega) (by omega) (by omega),
      show (240 + c / 262144 - 240) * 262144 + (128 + c / 4096 % 64 - 128) * 4096 +
        (128 + c / 64 % 64 - 128) * 64 + (128 + c % 64 - 128) = c by omega]

theorem utf8_roundtrip (s : List Nat) (h : ∀ c ∈ s, c < 1114112) :
    utf8Decode (utf8Encode s) = s := by
  induction s with
  | nil =>
    show utf8Decode [] = []
    rw [utf8Decode]
  | cons c s ih =>
    have hc : c < 1114112 := h c (List.mem_cons_self c s)
    have hs : ∀ x ∈ s, x < 1114112 := fun x hx => h x (List.mem_cons_of_mem c hx)
    have henc : utf8Encode (c :: s) = utf8EncodeChar c ++ utf8Encode s := by
      simp [utf8Encode]
    rw [henc, utf8Decode_encodeChar c hc, ih hs]

/-! ### Base64 round trip -/

theorem b64Val_lt (c : Nat) : b64Val c < 64 := by
  unfold b64Val
  split_ifs <;> omega

theorem b64Val_char (c : Nat) (h : isB64Digit c = true) :
    b64Char (b64Val c) = c := by
  simp only [isB64Digit, Bool.or_eq_true, Bool.and_eq_true, decide_eq_true_eq,
    beq_iff_eq] at h
  unfold b64Char b64Val
  split_ifs <;> omega

theorem b64Digit_ne_pad (c : Nat) (h : isB64Digit c = true) : c ≠ padChar := by
  simp only [isB64Digit, Bool.or_eq_true, Bool.and_eq_true, decide_eq_true_eq,
    beq_iff_eq] at h
  unfold padChar
  omega

theorem b64_roundtrip_aux (n : Nat) :
    ∀ s : List Nat, s.length ≤ n → isCanonicalB64 s = true →
      b64Encode (b64Decode s) = s := by
  induction n with
  | zero =>
    intro s hlen _
    have : s = [] := List.eq_nil_of_length_eq_zero (Nat.le_zero.mp hlen)
    subst this
    rfl
  | succ n ih =>
    intro s hlen hcan
    rcases s with _ | ⟨w, _ | ⟨x, _ | ⟨y, _ | ⟨z, rest⟩⟩⟩⟩
    · rfl
    · simp [isCanonicalB64] at hcan
    · simp [isCanonicalB64] at hcan
    · simp [isCanonicalB64] at hcan
    · by_cases hz : z = padChar
      · by_cases hy : y = padChar
        · simp [isCanonicalB64, hz, hy] at hcan
          obtain ⟨⟨hw, hx⟩, hrest, hx16⟩ := hcan
          have hvw := b64Val_lt w
          have hvx := b64Val_lt x
          subst hrest hz hy
          have hdec : b64Decode [w, x, padChar, padChar] =
              [b64Val w * 4 + b64Val x / 16] := by
            unfold b64Decode
            rw [if_pos rfl, if_pos rfl]
          rw [hdec]
          have he1 : (b64Val w * 4 + b64Val x / 16) / 4 = b64Val w := by omega
          have he2 : (b64Val w * 4 + b64Val x / 16) % 4 * 16 = b64Val x := by
            omega
          simp only [b64Encode, he1, he2, b64Val_char w hw, b64Val_char x hx]
        · simp [isCanonicalB64, hz, hy] at hcan
          obtain ⟨⟨hw, hx⟩, hrest, hyd, hy4⟩ := hcan
          have hvw := b64Val_lt w
          have hvx := b64Val_lt x
          have hvy := b64Val_lt y
          subst hrest hz
          have hdec : b64Decode [w, x, y, padChar] =
              [b64Val w * 4 + b64Val x / 16,
               b64Val x % 16 * 16 + b64Val y / 4] := by
            unfold b64Decode
            rw [if_pos rfl, if_neg hy]
          rw [hdec]
          have he1 : (b64Val w * 4 + b64Val x / 16) / 4 = b64Val w := by omega
          have he2 : (b64Val w * 4 + b64Val x / 16) % 4 * 16 +
              (b64Val x % 16 * 16 + b64Val y / 4) / 16 = b64Val x := by omega
          have he3 : (b64Val x % 16 * 16 + b64Val y / 4) % 16 * 4 = b64Val y := by
            omega
          simp only [b64Encode, he1, he2, he3, b64Val_char w hw,
            b64Val_char x hx, b64Val_char y hyd]
      · simp [isCanonicalB64, hz] at hcan
        obtain ⟨⟨hw, hx⟩, ⟨hyd, hzd⟩, hrest⟩ := hcan
        have hvw := b64Val_lt w
        have hvx := b64Val_lt x
        have hvy := b64Val_lt y
        have hvz := b64Val_lt z
        have hdec : b64Decode (w :: x :: y :: z :: rest) =
            (b64Val w * 4 + b64Val x / 16) ::
              (b64Val x % 16 * 16 + b64Val y / 4) ::
              (b64Val y % 4 * 64 + b64Val z) :: b64Decode rest := by
          conv_lhs => rw [b64Decode]
          rw [if_neg hz]
        rw [hdec]
        have hlen' : rest.length ≤ n := by
          simp only [List.length_cons] at hlen
          omega
        have he1 : (b64Val w * 4 + b64Val x / 16) / 4 = b64Val w := by omega
        have he2 : (b64Val w * 4 + b64Val x / 16) % 4 * 16 +
            (b64Val x % 16 * 16 + b64Val y / 4) / 16 = b64Val x := by omega
        have he3 : (b64Val x % 16 * 16 + b64Val y / 4) % 16 * 4 +
            (b64Val y % 4 * 64 + b64Val z) / 64 = b64Val y := by omega
        have he4 : (b64Val y % 4 * 64 + b64Val z) % 64 = b64Val z := by omega
        simp only [b64Encode, he1, he2, he3, he4, b64Val_char w hw,
          b64Val_char x hx, b64Val_char y hyd, b64Val_char z hzd,
          ih rest hlen' hrest]

theorem b64_roundtrip (s : List Nat) (h : isCanonicalB64 s = true) :
    b64Encode (b64Decode s) = s :=
  b64_roundtrip_aux s.length s (Nat.le_refl _) h

/-! ### Dispatch lemmas: the `switch` reduced at each concrete tag -/

theorem bufferToValue_bool_eq (b : List Nat) :
    bufferToValue b boolTag = do
      let n ← readUInt8 b 0
      return JsVal.bool (n != 0) := rfl

theorem bufferToValue_uint8_eq (b : List Nat) :
    bufferToValue b uint8Tag = do
      let n ← readUInt8 b 0
      return JsVal.num n := rfl

theorem bufferToValue_uint16_eq (b : List Nat) :
    bufferToValue b uint16Tag = do
      let n ← readUInt16LE b 0
      return JsVal.num n := rfl

theorem bufferToValue_uint32_eq (b : List Nat) :
    bufferToValue b uint32Tag = do
      let n ← readUInt32LE b 0
      return JsVal.num n := rfl

theorem bufferToValue_uint64_eq (b : List Nat) :
    bufferToValue b uint64Tag = do
      let low ← readUInt32LE b 0
      if low ≠ 0 then
        return JsVal.num low
      else do
        let high ← readUInt32LE b 4
        return JsVal.num (jsToInt32 high) := rfl

theorem bufferToValue_int_eq (b : List Nat) :
    bufferToValue b intTag = do
      let n ← readUInt32LE b 0
      return JsVal.num (jsToInt32 n) := rfl

theorem bufferToValue_float_eq (b : List Nat) :
    bufferToValue b floatTag = do
      let n ← readUInt32LE b 0
      return JsVal.f32 n := rfl

theorem bufferToValue_string_eq (b : List Nat) :
    bufferToValue b stringTag = .ok (.str (utf8Decode b)) := rfl

theorem bufferToValue_data_eq (b : List Nat) :
    bufferToValue b dataTag = .ok (.str (b64Encode b)) := rfl

theorem valueToBuffer_bool_eq (v : JsVal) :
    valueToBuffer v boolTag = .ok [if jsTruthy v then 1 else 0] := rfl

theorem valueToBuffer_uint8_eq (n : Int) :
    valueToBuffer (.num n) uint8Tag = .ok [(n % 256).toNat] := rfl

theorem valueToBuffer_uint16_eq (n : Int) :
    valueToBuffer (.num n) uint16Tag =
      if 0 ≤ n ∧ n ≤ 65535 then .ok (le2 n.toNat) else .error .rangeError := rfl

theorem valueToBuffer_uint32_eq (n : Int) :
    valueToBuffer (.num n) uint32Tag =
      if 0 ≤ n ∧ n ≤ 4294967295 then .ok (le4 n.toNat)
      else .error .rangeError := rfl

theorem valueToBuffer_uint64_eq (n : Int) :
    valueToBuffer (.num n) uint64Tag =
      if 0 ≤ jsToInt32 n ∧ jsToInt32 n ≤ 4294967295 then
        .ok (le4 (jsToInt32 n).toNat ++ le4 (jsToInt32 n).toNat)
      else
        .error .rangeError := rfl

theorem valueToBuffer_int_eq (n : Int) :
    valueToBuffer (.num n) intTag =
      if -2147483648 ≤ n ∧ n ≤ 2147483647 then
        .ok (le4 (n % 4294967296).toNat)
      else
        .error .rangeError := rfl

theorem valueToBuffer_float_eq (bits : Nat) :
    valueToBuffer (.f32 bits) floatTag = .ok (le4 bits) := rfl

theorem valueToBuffer_string_eq (s : List Nat) :
    valueToBuffer (.str s) stringTag = .ok (utf8Encode s) := rfl

theorem valueToBuffer_data_str_eq (s : List Nat) :
    valueToBuffer (.str s) dataTag = .ok (b64Decode s) := rfl

theorem valueToBuffer_data_buf_eq (b : List Nat) :
    valueToBuffer (.buf b) dataTag = .ok b := rfl

theorem bufferToValue_unknown (b format : List Nat) (h : format ∉ knownTags) :
    bufferToValue b format = .error (.unsupportedFormat format) := by
  simp only [knownTags, List.mem_cons, List.not_mem_nil, or_false,
    not_or] at h
  obtain ⟨h1, h2, h3, h4, h5, h6, h7, h8, h9⟩ := h
  unfold bufferToValue
  rw [if_neg h1, if_neg h2, if_neg h3, if_neg h4, if_neg h5, if_neg h6,
    if_neg h7, if_neg h8, if_neg h9]

theorem valueToBuffer_unknown (v : JsVal) (format : List Nat)
    (h : format ∉ knownTags) :
    valueToBuffer v format = .error (.unsupportedFormat format) := by
  simp only [knownTags, List.mem_cons, List.not_mem_nil, or_false,
    not_or] at h
  obtain ⟨h1, h2, h3, h4, h5, h6, h7, h8, h9⟩ := h
  unfold valueToBuffer
  rw [if_neg h1, if_neg h2, if_neg h3, if_neg h4, if_neg h5, if_neg h6,
    if_neg h7, if_neg h8, if_neg h9]

theorem except_ok_bind {α β : Type} (v : α) (f : α → Except JsErr β) :
    (Except.ok v : Except JsErr α) >>= f = f v := rfl

theorem except_error_bind {α β : Type} (e : JsErr) (f : α → Except JsErr β) :
    (Except.error e : Except JsErr α) >>= f = .error e := rfl

theorem readUInt8_cases (b : List Nat) (o : Nat) :
    readUInt8 b o = .ok (b.getD o 0) ∨ readUInt8 b o = .error .rangeError := by
  unfold readUInt8
  split
  · exact Or.inl rfl
  · exact Or.inr rfl

theorem readUInt16LE_cases (b : List Nat) (o : Nat) :
    readUInt16LE b o = .ok (b.getD o 0 + 256 * b.getD (o + 1) 0) ∨
      readUInt16LE b o = .error .rangeError := by
  unfold readUInt16LE
  split
  · exact Or.inl rfl
  · exact Or.inr rfl

theorem readUInt32LE_cases (b : List Nat) (o : Nat) :
    readUInt32LE b o =
      .ok (b.getD o 0 + 256 * b.getD (o + 1) 0 + 65536 * b.getD (o + 2) 0 +
        16777216 * b.getD (o + 3) 0) ∨
      readUInt32LE b o = .error .rangeError := by
  unfold readUInt32LE
  split
  · exact Or.inl rfl
  · exact Or.inr rfl

theorem readUInt8_ok (b : List Nat) (o : Nat) (h : o + 1 ≤ b.length) :
    readUInt8 b o = .ok (b.getD o 0) := by
  unfold readUInt8
  rw [if_pos h]

theorem readUInt16LE_ok (b : List Nat) (o : Nat) (h : o + 2 ≤ b.length) :
    readUInt16LE b o = .ok (b.getD o 0 + 256 * b.getD (o + 1) 0) := by
  unfold readUInt16LE
  rw [if_pos h]

theorem readUInt32LE_ok (b : List Nat) (o : Nat) (h : o + 4 ≤ b.length) :
    readUInt32LE b o =
      .ok (b.getD o 0 + 256 * b.getD (o + 1) 0 + 65536 * b.getD (o + 2) 0 +
        16777216 * b.getD (o + 3) 0) := by
  unfold readUInt32LE
  rw [if_pos h]

theorem valueToBuffer_uint8_match (v : JsVal) :
    valueToBuffer v uint8Tag =
      (match v with
       | .num n => .ok [(n % 256).toNat]
       | _ => .error .typeMismatch) := rfl

theorem valueToBuffer_uint16_match (v : JsVal) :
    valueToBuffer v uint16Tag =
      (match v with
       | .num n =>
         if 0 ≤ n ∧ n ≤ 65535 then .ok (le2 n.toNat) else .error .rangeError
       | _ => .error .typeMismatch) := rfl

theorem valueToBuffer_uint32_match (v : JsVal) :
    valueToBuffer v uint32Tag =
      (match v with
       | .num n =>
         if 0 ≤ n ∧ n ≤ 4294967295 then .ok (le4 n.toNat)
         else .error .rangeError
       | _ => .error .typeMismatch) := rfl

theorem valueToBuffer_uint64_match (v : JsVal) :
    valueToBuffer v uint64Tag =
      (match v with
       | .num n =>
         if 0 ≤ jsToInt32 n ∧ jsToInt32 n ≤ 4294967295 then
           .ok (le4 (jsToInt32 n).toNat ++ le4 (jsToInt32 n).toNat)
         else .error .rangeError
       | _ => .error .typeMismatch) := rfl

theorem valueToBuffer_int_match (v : JsVal) :
    valueToBuffer v intTag =
      (match v with
       | .num n =>
         if -2147483648 ≤ n ∧ n ≤ 2147483647 then
           .ok (le4 (n % 4294967296).toNat)
         else .error .rangeError
       | _ => .error .typeMismatch) := rfl

theorem valueToBuffer_float_match (v : JsVal) :
    valueToBuffer v floatTag =
      (match v with
       | .f32 bits => .ok (le4 bits)
       | _ => .error .typeMismatch) := rfl

theorem valueToBuffer_string_match (v : JsVal) :
    valueToBuffer v stringTag =
      (match v with
       | .str s => .ok (utf8Encode s)
       | _ => .error .typeMismatch) := rfl

theorem valueToBuffer_data_match (v : JsVal) :
    valueToBuffer v dataTag =
      (match v with
       | .str s => .ok (b64Decode s)
       | .buf b => .ok b
       | _ => .error .typeMismatch) := rfl

/-! ### Claim theorems for the codec: C3 and C7 (uint64 defects) -/

/-- Counterexample to C3: decoding the 8-byte buffer with low word 0 and
high word 1 yields 1, not the claimed `1 <<< 32 = 4294967296` — JavaScript's
`<<` masks the shift count to 5 bits, so `x << 32` is `x << 0`. -/
theorem c3_counterexample :
    bufferToValue [0, 0, 0, 0, 1, 0, 0, 0] uint64Tag = .ok (.num 1) ∧
    bufferToValue [0, 0, 0, 0, 1, 0, 0, 0] uint64Tag ≠
      .ok (.num 4294967296) := by
  refine ⟨rfl, fun hcontra => ?_⟩
  rw [show bufferToValue [0, 0, 0, 0, 1, 0, 0, 0] uint64Tag = .ok (.num 1)
    from rfl] at hcontra
  simp at hcontra

/-- C3 (amended): on an 8-byte buffer, `uint64` decoding returns the
little-endian 32-bit word at offset 0 if it is non-zero; if that low word is
zero it returns the little-endian word at offset 4 converted with ToInt32
(not left-shifted by 32: JavaScript's `<<` masks the shift count to 5 bits,
so `high << 32` evaluates to `ToInt32(high)`). -/
theorem c3_uint64_decode (b : List Nat) (h : b.length = 8) :
    bufferToValue b uint64Tag =
      .ok (.num
        (if b.getD 0 0 + 256 * b.getD 1 0 + 65536 * b.getD 2 0 +
            16777216 * b.getD 3 0 ≠ 0
         then ((b.getD 0 0 + 256 * b.getD 1 0 + 65536 * b.getD 2 0 +
            16777216 * b.getD 3 0 : Nat) : Int)
         else jsToInt32 ((b.getD 4 0 + 256 * b.getD 5 0 + 65536 * b.getD 6 0 +
            16777216 * b.getD 7 0 : Nat) : Int))) := by
  rw [bufferToValue_uint64_eq]
  have hlow : readUInt32LE b 0 =
      .ok (b.getD 0 0 + 256 * b.getD 1 0 + 65536 * b.getD 2 0 +
        16777216 * b.getD 3 0) := by
    unfold readUInt32LE
    rw [if_pos (by omega)]
  have hhigh : readUInt32LE b 4 =
      .ok (b.getD 4 0 + 256 * b.getD 5 0 + 65536 * b.getD 6 0 +
        16777216 * b.getD 7 0) := by
    unfold readUInt32LE
    rw [if_pos (by omega)]
  rw [hlow, except_ok_bind]
  by_cases hz : b.getD 0 0 + 256 * b.getD 1 0 + 65536 * b.getD 2 0 +
      16777216 * b.getD 3 0 = 0
  · rw [if_neg (fun hc => hc hz), if_neg (fun hc => hc hz), hhigh,
      except_ok_bind]
    rfl
  · rw [if_pos hz, if_pos hz]
    rfl

/-- Witness for C3 (amended): a concrete 8-byte buffer with non-zero low
word decodes to that low word. -/
theorem c3_uint64_decode_witness :
    bufferToValue [2, 0, 0, 0, 9, 9, 9, 9] uint64Tag = .ok (.num 2) := by
  have h := c3_uint64_decode [2, 0, 0, 0, 9, 9, 9, 9] (by decide)
  simpa using h

/-- Counterexample to C7: encoding 1 as `uint64` produces
`[1,0,0,0,1,0,0,0]` — the word 1 is written at BOTH offsets 0 and 4 —
whereas the claim (bytes 4–7 hold bits 32–63 of the value, i.e. 0) demands
`[1,0,0,0,0,0,0,0]`.  `value >> 32` shifts by `32 & 31 = 0`, so the high
word written is ToInt32 of the value, not its bits 32–63. -/
theorem c7_counterexample :
    valueToBuffer (.num 1) uint64Tag = .ok [1, 0, 0, 0, 1, 0, 0, 0] ∧
    valueToBuffer (.num 1) uint64Tag ≠ .ok [1, 0, 0, 0, 0, 0, 0, 0] := by
  refine ⟨rfl, fun hcontra => ?_⟩
  rw [show valueToBuffer (.num 1) uint64Tag = .ok [1, 0, 0, 0, 1, 0, 0, 0]
    from rfl] at hcontra
  simp at hcontra

/-- C7 (amended): for every integer JS number `v`, `uint64` encoding
computes `w = ToInt32(v)` (both `value & 0xffffffff` and `value >> 32`
evaluate to it under JS 32-bit operator semantics) and, when `w ≥ 0`,
produces an 8-byte buffer holding `w` as a little-endian word in BOTH bytes
0–3 and bytes 4–7; when `w < 0`, `writeUInt32LE` throws a `RangeError`. -/
theorem c7_uint64_encode (n : Int) :
    valueToBuffer (.num n) uint64Tag =
      if 0 ≤ jsToInt32 n then
        .ok (le4 (jsToInt32 n).toNat ++ le4 (jsToInt32 n).toNat)
      else
        .error .rangeError := by
  have hb := jsToInt32_bounds n
  rw [valueToBuffer_uint64_eq]
  by_cases h0 : 0 ≤ jsToInt32 n
  · rw [if_pos ⟨h0, by omega⟩, if_pos h0]
  · rw [if_neg (fun hc => h0 hc.1), if_neg h0]

theorem except_pure_ne_error {α : Type} (v : α) (e : JsErr) :
    (pure v : Except JsErr α) ≠ .error e := fun h => Except.noConfusion h

theorem except_ok_ne_error {α : Type} (v : α) (e : JsErr) :
    (Except.ok v : Except JsErr α) ≠ .error e := fun h => Except.noConfusion h

theorem rangeError_ne_unsup {α : Type} (t : List Nat) :
    (Except.error .rangeError : Except JsErr α) ≠
      .error (.unsupportedFormat t) := by
  intro h
  injection h with h'
  exact JsErr.noConfusion h'

theorem typeMismatch_ne_unsup {α : Type} (t : List Nat) :
    (Except.error .typeMismatch : Except JsErr α) ≠
      .error (.unsupportedFormat t) := by
  intro h
  injection h with h'
  exact JsErr.noConfusion h'

/-- Counterexample to C6: `uint8` is a known tag, yet decoding the empty
buffer fails — with a `RangeError` from `readUInt8`, not with
`UnsupportedFormat` — refuting "for every known tag and every buffer,
decode does not fail". -/
theorem c6_counterexample :
    uint8Tag ∈ knownTags ∧
    bufferToValue [] uint8Tag = .error .rangeError ∧
    JsErr.rangeError ≠ JsErr.unsupportedFormat uint8Tag := by
  refine ⟨by simp [knownTags], rfl, fun h => JsErr.noConfusion h⟩

/-- C6 (amended): both codec functions throw `UnsupportedFormat`, naming the
offending tag, exactly when the format tag lies outside the fixed set of
nine; for a known tag neither function ever reports `UnsupportedFormat`,
and the only decode failures are `RangeError`s on buffers shorter than the
format's fixed width — decoding succeeds on every buffer at least as long
as that width. -/
theorem c6_unsupportedFormat_iff (format buffer : List Nat) (value : JsVal) :
    (format ∉ knownTags →
      bufferToValue buffer format = .error (.unsupportedFormat format) ∧
      valueToBuffer value format = .error (.unsupportedFormat format)) ∧
    (format ∈ knownTags →
      (∀ t, bufferToValue buffer format ≠ .error (.unsupportedFormat t)) ∧
      (∀ t, valueToBuffer value format ≠ .error (.unsupportedFormat t)) ∧
      (formatWidth format ≤ buffer.length →
        ∃ w, bufferToValue buffer format = .ok w)) := by
  constructor
  · intro h
    exact ⟨bufferToValue_unknown buffer format h,
           valueToBuffer_unknown value format h⟩
  · intro hmem
    simp only [knownTags, List.mem_cons, List.not_mem_nil, or_false] at hmem
    rcases hmem with h | h | h | h | h | h | h | h | h <;> subst h
    · refine ⟨fun t => ?_, fun t => ?_, fun hw => ?_⟩
      · rcases readUInt8_cases buffer 0 with hr | hr
        · rw [bufferToValue_bool_eq, hr, except_ok_bind]
          exact except_pure_ne_error _ _
        · rw [bufferToValue_bool_eq, hr, except_error_bind]
          exact rangeError_ne_unsup t
      · rw [valueToBuffer_bool_eq]
        exact except_ok_ne_error _ _
      · rw [show formatWidth boolTag = 1 from rfl] at hw
        exact ⟨_, by rw [bufferToValue_bool_eq,
          readUInt8_ok buffer 0 (by omega), except_ok_bind]; rfl⟩
    · refine ⟨fun t => ?_, fun t => ?_, fun hw => ?_⟩
      · rcases readUInt8_cases buffer 0 with hr | hr
        · rw [bufferToValue_uint8_eq, hr, except_ok_bind]
          exact except_pure_ne_error _ _
        · rw [bufferToValue_uint8_eq, hr, except_error_bind]
          exact rangeError_ne_unsup t
      · cases value <;> simp only [valueToBuffer_uint8_match] <;>
          first
          | exact except_ok_ne_error _ _
          | exact typeMismatch_ne_unsup _
      · rw [show formatWidth uint8Tag = 1 from rfl] at hw
        exact ⟨_, by rw [bufferToValue_uint8_eq,
          readUInt8_ok buffer 0 (by omega), except_ok_bind]; rfl⟩
    · refine ⟨fun t => ?_, fun t => ?_, fun hw => ?_⟩
      · rcases readUInt16LE_cases buffer 0 with hr | hr
        · rw [bufferToValue_uint16_eq, hr, except_ok_bind]
          exact except_pure_ne_error _ _
        · rw [bufferToValue_uint16_eq, hr, except_error_bind]
          exact rangeError_ne_unsup t
      · cases value <;> simp only [valueToBuffer_uint16_match] <;>
          first
          | (split_ifs <;>
              first
              | exact except_ok_ne_error _ _
              | exact rangeError_ne_unsup _)
          | exact typeMismatch_ne_unsup _
      · rw [show formatWidth uint16Tag = 2 from rfl] at hw
        exact ⟨_, by rw [bufferToValue_uint16_eq,
          readUInt16LE_ok buffer 0 (by omega), except_ok_bind]; rfl⟩
    · refine ⟨fun t => ?_, fun t => ?_, fun hw => ?_⟩
      · rcases readUInt32LE_cases buffer 0 with hr | hr
        · rw [bufferToValue_uint32_eq, hr, except_ok_bind]
          exact except_pure_ne_error _ _
        · rw [bufferToValue_uint32_eq, hr, except_error_bind]
          exact rangeError_ne_unsup t
      · cases value <;> simp only [valueToBuffer_uint32_match] <;>
          first
          | (split_ifs <;>
              first
              | exact except_ok_ne_error _ _
              | exact rangeError_ne_unsup _)
          | exact typeMismatch_ne_unsup _
      · rw [show formatWidth uint32Tag = 4 from rfl] at hw
        exact ⟨_, by rw [bufferToValue_uint32_eq,
          readUInt32LE_ok buffer 0 (by omega), except_ok_bind]; rfl⟩
    · refine ⟨fun t => ?_, fun t => ?_, fun hw => ?_⟩
      · rcases readUInt32LE_cases buffer 0 with hr | hr
        · rw [bufferToValue_uint64_eq, hr, except_ok_bind]
          split_ifs with hz
          · exact except_pure_ne_error _ _
          · rcases readUInt32LE_cases buffer 4 with hr2 | hr2
            · rw [hr2, except_ok_bind]
              exact except_pure_ne_error _ _
            · rw [hr2, except_error_bind]
              exact rangeError_ne_unsup t
        · rw [bufferToValue_uint64_eq, hr, except_error_bind]
          exact rangeError_ne_unsup t
      · cases value <;> simp only [valueToBuffer_uint64_match] <;>
          first
          | (split_ifs <;>
              first
              | exact except_ok_ne_error _ _
              | exact rangeError_ne_unsup _)
          | exact typeMismatch_ne_unsup _
      · rw [show formatWidth uint64Tag = 8 from rfl] at hw
        rw [bufferToValue_uint64_eq, readUInt32LE_ok buffer 0 (by omega),
          except_ok_bind]
        split_ifs with hz
        · exact ⟨_, rfl⟩
        · rw [readUInt32LE_ok buffer 4 (by omega), except_ok_bind]
          exact ⟨_, rfl⟩
    · refine ⟨fun t => ?_, fun t => ?_, fun hw => ?_⟩
      · rcases readUInt32LE_cases buffer 0 with hr | hr
        · rw [bufferToValue_int_eq, hr, except_ok_bind]
          exact except_pure_ne_error _ _
        · rw [bufferToValue_int_eq, hr, except_error_bind]
          exact rangeError_ne_unsup t
      · cases value <;> simp only [valueToBuffer_int_match] <;>
          first
          | (split_ifs <;>
              first
              | exact except_ok_ne_error _ _
              | exact rangeError_ne_unsup _)
          | exact typeMismatch_ne_unsup _
      · rw [show formatWidth intTag = 4 from rfl] at hw
        exact ⟨_, by rw [bufferToValue_int_eq,
          readUInt32LE_ok buffer 0 (by omega), except_ok_bind]; rfl⟩
    · refine ⟨fun t => ?_, fun t => ?_, fun hw => ?_⟩
      · rcases readUInt32LE_cases buffer 0 with hr | hr
        · rw [bufferToValue_float_eq, hr, except_ok_bind]
          exact except_pure_ne_error _ _
        · rw [bufferToValue_float_eq, hr, except_error_bind]
          exact rangeError_ne_unsup t
      · cases value <;> simp only [valueToBuffer_float_match] <;>
          first
          | exact except_ok_ne_error _ _
          | exact typeMismatch_ne_unsup _
      · rw [show formatWidth floatTag = 4 from rfl] at hw
        exact ⟨_, by rw [bufferToValue_float_eq,
          readUInt32LE_ok buffer 0 (by omega), except_ok_bind]; rfl⟩
    · refine ⟨fun t => ?_, fun t => ?_, fun _ => ?_⟩
      · rw [bufferToValue_string_eq]
        exact except_ok_ne_error _ _
      · cases value <;> simp only [valueToBuffer_string_match] <;>
          first
          | exact except_ok_ne_error _ _
          | exact typeMismatch_ne_unsup _
      · exact ⟨_, bufferToValue_string_eq buffer⟩
    · refine ⟨fun t => ?_, fun t => ?_, fun _ => ?_⟩
      · rw [bufferToValue_data_eq]
        exact except_ok_ne_error _ _
      · cases value <;> simp only [valueToBuffer_data_match] <;>
          first
          | exact except_ok_ne_error _ _
          | exact typeMismatch_ne_unsup _
      · exact ⟨_, bufferToValue_data_eq buffer⟩

/-- Witness for C6 (amended) at concrete inputs. -/
theorem c6_unsupportedFormat_iff_witness :
    bufferToValue [] [120] = .error (.unsupportedFormat [120]) ∧
    valueToBuffer (.num 3) [120] = .error (.unsupportedFormat [120]) ∧
    bufferToValue [7] uint8Tag ≠ .error (.unsupportedFormat uint8Tag) ∧
    valueToBuffer (.num 3) uint8Tag ≠ .error (.unsupportedFormat uint8Tag) ∧
    (∃ w, bufferToValue [7] uint8Tag = .ok w) := by
  have hu := (c6_unsupportedFormat_iff [120] [] (.num 3)).1 (by decide)
  have hk := (c6_unsupportedFormat_iff uint8Tag [7] (.num 3)).2 (by decide)
  exact ⟨hu.1, hu.2, hk.1 uint8Tag, hk.2.1 uint8Tag, hk.2.2 (by decide)⟩

theorem roundtrip_bool (bv : Bool) :
    valueToBuffer (.bool bv) boolTag >>=
      (fun b => bufferToValue b boolTag) = .ok (.bool bv) := by
  cases bv <;> rfl

theorem roundtrip_uint8 (n : Int) (h0 : 0 ≤ n) (h1 : n ≤ 255) :
    valueToBuffer (.num n) uint8Tag >>=
      (fun b => bufferToValue b uint8Tag) = .ok (.num n) := by
  rw [valueToBuffer_uint8_eq, except_ok_bind, bufferToValue_uint8_eq,
    readUInt8_ok _ 0 (by simp), except_ok_bind]
  simp only [List.getD_cons_zero]
  rw [show (((n % 256).toNat : Int)) = n by omega]
  rfl

theorem roundtrip_uint16 (n : Int) (h0 : 0 ≤ n) (h1 : n ≤ 65535) :
    valueToBuffer (.num n) uint16Tag >>=
      (fun b => bufferToValue b uint16Tag) = .ok (.num n) := by
  rw [valueToBuffer_uint16_eq, if_pos ⟨h0, h1⟩, except_ok_bind,
    bufferToValue_uint16_eq, readUInt16LE_ok _ 0 (by simp [le2]),
    except_ok_bind]
  simp only [le2, List.getD_cons_zero, List.getD_cons_succ]
  rw [show ((n.toNat % 256 + 256 * (n.toNat / 256 % 256) : Nat) : Int) = n
    by omega]
  rfl

theorem roundtrip_uint32 (n : Int) (h0 : 0 ≤ n) (h1 : n ≤ 4294967295) :
    valueToBuffer (.num n) uint32Tag >>=
      (fun b => bufferToValue b uint32Tag) = .ok (.num n) := by
  rw [valueToBuffer_uint32_eq, if_pos ⟨h0, h1⟩, except_ok_bind,
    bufferToValue_uint32_eq, readUInt32LE_ok _ 0 (by simp [le4]),
    except_ok_bind]
  simp only [le4, List.getD_cons_zero, List.getD_cons_succ]
  rw [show ((n.toNat % 256 + 256 * (n.toNat / 256 % 256) +
      65536 * (n.toNat / 65536 % 256) +
      16777216 * (n.toNat / 16777216 % 256) : Nat) : Int) = n by omega]
  rfl

theorem roundtrip_int (n : Int) (h0 : -2147483648 ≤ n) (h1 : n ≤ 2147483647) :
    valueToBuffer (.num n) intTag >>=
      (fun b => bufferToValue b intTag) = .ok (.num n) := by
  rw [valueToBuffer_int_eq, if_pos ⟨h0, h1⟩, except_ok_bind,
    bufferToValue_int_eq, readUInt32LE_ok _ 0 (by simp [le4]),
    except_ok_bind]
  simp only [le4, List.getD_cons_zero, List.getD_cons_succ]
  rw [show jsToInt32 (((n % 4294967296).toNat % 256 +
      256 * ((n % 4294967296).toNat / 256 % 256) +
      65536 * ((n % 4294967296).toNat / 65536 % 256) +
      16777216 * ((n % 4294967296).toNat / 16777216 % 256) : Nat) : Int) = n
    by unfold jsToInt32; omega]
  rfl

theorem roundtrip_float (bits : Nat) (h : bits < 4294967296) :
    valueToBuffer (.f32 bits) floatTag >>=
      (fun b => bufferToValue b floatTag) = .ok (.f32 bits) := by
  rw [valueToBuffer_float_eq, except_ok_bind, bufferToValue_float_eq,
    readUInt32LE_ok _ 0 (by simp [le4]), except_ok_bind]
  simp only [le4, List.getD_cons_zero, List.getD_cons_succ]
  rw [show (bits % 256 + 256 * (bits / 256 % 256) +
      65536 * (bits / 65536 % 256) +
      16777216 * (bits / 16777216 % 256) : Nat) = bits by omega]
  rfl

theorem roundtrip_string (s : List Nat) (h : ∀ c ∈ s, c < 1114112) :
    valueToBuffer (.str s) stringTag >>=
      (fun b => bufferToValue b stringTag) = .ok (.str s) := by
  rw [valueToBuffer_string_eq, except_ok_bind, bufferToValue_string_eq,
    utf8_roundtrip s h]

theorem roundtrip_data (s : List Nat) (h : isCanonicalB64 s = true) :
    valueToBuffer (.str s) dataTag >>=
      (fun b => bufferToValue b dataTag) = .ok (.str s) := by
  rw [valueToBuffer_data_str_eq, except_ok_bind, bufferToValue_data_eq,
    b64_roundtrip s h]

/-- C2: for every format tag except `uint64` and every value exactly
representable in that format's domain, decoding the encoding returns the
value unchanged: `bufferToValue (valueToBuffer v fmt) fmt = v`. -/
theorem c2_decode_encode_roundtrip (format : List Nat) (value : JsVal)
    (hf : format ∈ [boolTag, uint8Tag, uint16Tag, uint32Tag, intTag,
      floatTag, stringTag, dataTag])
    (hd : inDomain value format = true) :
    valueToBuffer value format >>= (fun b => bufferToValue b format) =
      .ok value := by
  simp only [List.mem_cons, List.not_mem_nil, or_false] at hf
  rcases hf with h | h | h | h | h | h | h | h <;> subst h
  · rcases value with bv | n | bits | s | b
    · exact roundtrip_bool bv
    all_goals simp [inDomain, boolTag, uint8Tag, uint16Tag, uint32Tag, uint64Tag, intTag, floatTag, stringTag, dataTag] at hd
  · rcases value with bv | n | bits | s | b
    case num =>
      simp [inDomain, boolTag, uint8Tag, uint16Tag, uint32Tag, uint64Tag, intTag, floatTag, stringTag, dataTag] at hd
      exact roundtrip_uint8 n hd.1 hd.2
    all_goals simp [inDomain, boolTag, uint8Tag, uint16Tag, uint32Tag, uint64Tag, intTag, floatTag, stringTag, dataTag] at hd
  · rcases value with bv | n | bits | s | b
    case num =>
      simp [inDomain, boolTag, uint8Tag, uint16Tag, uint32Tag, uint64Tag, intTag, floatTag, stringTag, dataTag] at hd
      exact roundtrip_uint16 n hd.1 hd.2
    all_goals simp [inDomain, boolTag, uint8Tag, uint16Tag, uint32Tag, uint64Tag, intTag, floatTag, stringTag, dataTag] at hd
  · rcases value with bv | n | bits | s | b
    case num =>
      simp [inDomain, boolTag, uint8Tag, uint16Tag, uint32Tag, uint64Tag, intTag, floatTag, stringTag, dataTag] at hd
      exact roundtrip_uint32 n hd.1 hd.2
    all_goals simp [inDomain, boolTag, uint8Tag, uint16Tag, uint32Tag, uint64Tag, intTag, floatTag, stringTag, dataTag] at hd
  · rcases value with bv | n | bits | s | b
    case num =>
      simp [inDomain, boolTag, uint8Tag, uint16Tag, uint32Tag, uint64Tag, intTag, floatTag, stringTag, dataTag] at hd
      exact roundtrip_int n hd.1 hd.2
    all_goals simp [inDomain, boolTag, uint8Tag, uint16Tag, uint32Tag, uint64Tag, intTag, floatTag, stringTag, dataTag] at hd
  · rcases value with bv | n | bits | s | b
    case f32 =>
      simp [inDomain, boolTag, uint8Tag, uint16Tag, uint32Tag, uint64Tag, intTag, floatTag, stringTag, dataTag] at hd
      exact roundtrip_float bits hd.1
    all_goals simp [inDomain, boolTag, uint8Tag, uint16Tag, uint32Tag, uint64Tag, intTag, floatTag, stringTag, dataTag] at hd
  · rcases value with bv | n | bits | s | b
    case str =>
      simp [inDomain, boolTag, uint8Tag, uint16Tag, uint32Tag, uint64Tag, intTag, floatTag, stringTag, dataTag] at hd
      exact roundtrip_string s (fun c hc => (hd c hc).1)
    all_goals simp [inDomain, boolTag, uint8Tag, uint16Tag, uint32Tag, uint64Tag, intTag, floatTag, stringTag, dataTag] at hd
  · rcases value with bv | n | bits | s | b
    case str =>
      simp [inDomain, boolTag, uint8Tag, uint16Tag, uint32Tag, uint64Tag, intTag, floatTag, stringTag, dataTag] at hd
      exact roundtrip_data s (by simpa using hd)
    all_goals simp [inDomain, boolTag, uint8Tag, uint16Tag, uint32Tag, uint64Tag, intTag, floatTag, stringTag, dataTag] at hd

/-- Witness for C2 at concrete inputs: a `uint16` value and a canonical
base64 `data` value both round-trip. -/
theorem c2_decode_encode_roundtrip_witness :
    valueToBuffer (.num 3000) uint16Tag >>=
      (fun b => bufferToValue b uint16Tag) = .ok (.num 3000) ∧
    valueToBuffer (.str [83, 71, 86, 115, 98, 71, 56, 61]) dataTag >>=
      (fun b => bufferToValue b dataTag) =
      .ok (.str [83, 71, 86, 115, 98, 71, 56, 61]) :=
  ⟨c2_decode_encode_roundtrip uint16Tag (.num 3000) (by simp) (by decide),
   c2_decode_encode_roundtrip dataTag (.str [83, 71, 86, 115, 98, 71, 56, 61])
     (by simp) (by decide)⟩

end GattUtils
